import Mathlib

/-!
Shallow embedding of the speech-boundary detection and barge-in arbitration
engine of the voice-agent repository
(`Agent-operating-the-computer-while-on-a-phone-call`).

The embedded code:
* `agent.py` — `VoiceAgent.on_speech_end` (the arbiter), `VoiceAgent._fast_decision_thread`
  (the fast-path classifier), `VoiceAgent._apply_input_guardrails` and the main loop turn;
* `audio_handler.py` — `AudioHandler.listen_and_detect` (the segment assembler state machine);
* `tts_handler.py` — the TTS queue bookkeeping (`clear_queue`, `task_done`, `join`),
  together with the drain-on-interrupt variant of the sibling `tts_handler.py`;
* `config.py` — the numeric constants the above read.

External services (transcription, the small classifier model, synthesis) are values
of `Except Unit String`: `.error ()` models the call raising, `.ok s` its return value.
-/

namespace Agent

/-! ## Configuration constants (`config.py`) -/

/-- `config.VAD_FRAME_MS = 32`. -/
def VAD_FRAME_MS : Nat := 32

/-- `config.VAD_MAX_SILENCE_DURATION_MS = 800`. -/
def VAD_MAX_SILENCE_DURATION_MS : Nat := 800

/-- `config.VAD_MIN_SPEECH_DURATION_MS = 250`. -/
def VAD_MIN_SPEECH_DURATION_MS : Nat := 250

/-- `config.AUDIO_SAMPLING_RATE = 16000` (equal to `VAD_SAMPLING_RATE`). -/
def AUDIO_SAMPLING_RATE : Nat := 16000

/-- `audio_handler.py`: `min_speech_duration_samples = int(VAD_MIN_SPEECH_DURATION_MS / 1000 * AUDIO_SAMPLING_RATE)` = 4000. -/
def min_speech_duration_samples : Nat := VAD_MIN_SPEECH_DURATION_MS * AUDIO_SAMPLING_RATE / 1000

/-! ## Fast-path classifier (`VoiceAgent._fast_decision_thread`, agent.py lines 82-126)

The thread body sets a local `decision` (initially `"process"`), runs the classification
policy inside `try/except`, and in `finally` performs exactly one
`self.decision_queue.put(decision)`.  Besides the decision it may set or clear the global
`interrupt_event`.  We model the effect on that flag explicitly. -/

/-- Effect of one fast-path run on the global `interrupt_event`. -/
inductive InterruptEffect where
  | setFlag
  | clearFlag
  | keep
deriving DecidableEq, Repr

/-- Python's `str.strip()`: remove leading and trailing whitespace. -/
def pyStrip (s : String) : String :=
  ⟨((s.data.dropWhile Char.isWhitespace).reverse.dropWhile Char.isWhitespace).reverse⟩

/-- Python's `str.lower()`. -/
def pyLower (s : String) : String := ⟨s.data.map Char.toLower⟩

/-- `VoiceAgent._fast_decision_thread`, as a function of the length of the audio
snapshot, the result of `self._transcribe` and the result of the small-model
classification call.  Returns the decision string put on `decision_queue` and the
effect on `interrupt_event`.

Control flow of the source: `if len(audio_snapshot) < 2048: decision = "ignore"` ;
else `text = self._transcribe(...)` (may raise) ; `if not text.strip(): decision = "ignore"` ;
else the small model is called (may raise), its reply is `.strip().lower()`-ed;
`"interrupt"` gives `interrupt_event.set()` and `decision = "process"`, anything else gives
`interrupt_event.clear()` and `decision = "ignore"`; any exception is caught by
`except: decision = "process"; interrupt_event.set()`. -/
def fast_decision (snapshot_len : Nat)
    (transcribe_result : Except Unit String)
    (classify_result : Except Unit String) : String × InterruptEffect :=
  if snapshot_len < 2048 then
    ("ignore", InterruptEffect.keep)
  else
    match transcribe_result with
    | Except.error _ => ("process", InterruptEffect.setFlag)
    | Except.ok text =>
      if pyStrip text = "" then
        ("ignore", InterruptEffect.keep)
      else
        match classify_result with
        | Except.error _ => ("process", InterruptEffect.setFlag)
        | Except.ok raw =>
          if pyLower (pyStrip raw) = "interrupt" then
            ("process", InterruptEffect.setFlag)
          else
            ("ignore", InterruptEffect.clearFlag)

/-! ## Arbiter (`VoiceAgent.on_speech_end`, agent.py lines 62-80)

`on_speech_end` blocks on `decision_queue.get(timeout=10.0)`.  `received = none`
models `queue.Empty` after the 10 s timeout; `received = some d` models a decision
string arriving in time.  The `finally` block drains the capacity-1 channel, so the
channel is empty afterwards in this sequential model. -/

/-- Result of one arbiter rendezvous: the audio segments appended to
`user_speech_queue`, and the content of `decision_queue` after the `finally` drain. -/
structure ArbiterOutcome where
  forwarded : List (List Nat)
  channel_after : Option String
deriving DecidableEq, Repr

/-- `VoiceAgent.on_speech_end` applied to one finalized segment `audio_data`. -/
def on_speech_end (received : Option String) (audio_data : List Nat) : ArbiterOutcome :=
  match received with
  | some decision =>
      if decision = "process" then
        { forwarded := [audio_data], channel_after := none }
      else
        { forwarded := [], channel_after := none }
  | none =>
      { forwarded := [audio_data], channel_after := none }

/-! ## Input guardrail and main-loop turn (`VoiceAgent._apply_input_guardrails`,
`VoiceAgent._main_loop`, agent.py lines 128-151) -/

/-- Python's substring test restricted to: does `pat` occur at the head of `s`? -/
def prefixMatch : List Char → List Char → Bool
  | [], _ => true
  | _ :: _, [] => false
  | p :: ps, c :: cs => p = c && prefixMatch ps cs

/-- Python's `pat in s` substring membership on character lists. -/
def containsSub (pat : List Char) : List Char → Bool
  | [] => prefixMatch pat []
  | c :: cs => prefixMatch pat (c :: cs) || containsSub pat cs

/-- Python's `pat in s` on strings. -/
def strContains (s pat : String) : Bool := containsSub pat.data s.data

/-- The disallowed marker checked by `_apply_input_guardrails`: `"捣乱" in user_text`. -/
def guardrail_marker : String := "捣乱"

/-- The fixed scripted response spoken when the guardrail triggers. -/
def guardrail_response : String := "请我们专注于当前任务。"

/-- `VoiceAgent._apply_input_guardrails`: returns whether the guardrail triggered. -/
def apply_input_guardrails (user_text : String) : Bool :=
  strContains user_text guardrail_marker

/-- One message of `conversation_history`. -/
structure Message where
  role : String
  content : String
deriving DecidableEq, Repr

/-- Observable result of one `_main_loop` turn. -/
structure TurnResult where
  history : List Message
  llm_invoked : Bool
  tts_played : List String
deriving DecidableEq, Repr

/-- One iteration of `VoiceAgent._main_loop` after the dequeued audio has been
transcribed to `user_text`: if `_apply_input_guardrails` returns `True` the loop
`continue`s (the guardrail has played the scripted response); otherwise the user
message is appended to `conversation_history` and `_trigger_large_llm` runs. -/
def main_loop_turn (history : List Message) (user_text : String) : TurnResult :=
  if apply_input_guardrails user_text then
    { history := history, llm_invoked := false, tts_played := [guardrail_response] }
  else
    { history := history ++ [{ role := "user", content := user_text }],
      llm_invoked := true, tts_played := [] }

/-! ## Segment assembler (`AudioHandler.listen_and_detect`, audio_handler.py lines 60-105)

A frame is its byte content, modelled as `List Nat`.  Each loop iteration reads one
frame and its VAD verdict; the handler state carries `is_speaking`, the
`speech_buffer` (a list of frames), the run counter `silence_chunks_after_speech`,
and the `ring_buffer` (a `deque(maxlen=5)` of frames, most recent last). -/

/-- `collections.deque(maxlen=5)` used for `ring_buffer` in `AudioHandler.__init__`. -/
def RING_MAXLEN : Nat := 5

/-- `deque(maxlen=5).append`: drop the oldest element when full. -/
def ringAppend (r : List (List Nat)) (c : List Nat) : List (List Nat) :=
  if r.length < RING_MAXLEN then r ++ [c] else r.tail ++ [c]

/-- Mutable state of `AudioHandler` read and written by `listen_and_detect`. -/
structure VADState where
  is_speaking : Bool
  speech_buffer : List (List Nat)
  silence_chunks_after_speech : Nat
  ring_buffer : List (List Nat)
deriving DecidableEq, Repr

/-- The state set up by `AudioHandler.__init__` (and restored by every finalization). -/
def initState : VADState :=
  { is_speaking := false, speech_buffer := [], silence_chunks_after_speech := 0,
    ring_buffer := [] }

/-- `b''.join(...)` over the buffered frames. -/
def joinChunks (l : List (List Nat)) : List Nat := l.flatten

/-- One iteration of the `while` loop of `AudioHandler.listen_and_detect`, applied
to one frame `chunk` with VAD verdict `is_speech`.  Returns the new handler state
and the finalized segment passed to `on_speech_end`, if this iteration emitted one.

Source control flow: on a speech frame, if not yet speaking flush `ring_buffer`
into `speech_buffer` and clear it, then append the frame and zero the silence
counter; on a silence frame while speaking, append the frame, bump the counter,
and when `counter * VAD_FRAME_MS >= VAD_MAX_SILENCE_DURATION_MS` finalize: join the
buffer, reset every state field, and call `on_speech_end(final_audio)` only when
`len(final_audio) >= min_speech_duration_samples * 2`; on a silence frame while
idle, append the frame to `ring_buffer`. -/
def listen_step (s : VADState) (chunk : List Nat) (is_speech : Bool) :
    VADState × Option (List Nat) :=
  if is_speech then
    let s1 :=
      if ¬ s.is_speaking then
        { s with is_speaking := true,
                 speech_buffer := s.speech_buffer ++ s.ring_buffer,
                 ring_buffer := [] }
      else s
    ({ s1 with speech_buffer := s1.speech_buffer ++ [chunk],
               silence_chunks_after_speech := 0 }, none)
  else
    if s.is_speaking then
      let buf := s.speech_buffer ++ [chunk]
      let n := s.silence_chunks_after_speech + 1
      if VAD_MAX_SILENCE_DURATION_MS ≤ n * VAD_FRAME_MS then
        let final_audio := joinChunks buf
        (initState,
          if min_speech_duration_samples * 2 ≤ final_audio.length then some final_audio
          else none)
      else
        ({ s with speech_buffer := buf, silence_chunks_after_speech := n }, none)
    else
      ({ s with ring_buffer := ringAppend s.ring_buffer chunk }, none)

/-- `listen_and_detect` run over a list of (frame, VAD verdict) pairs, collecting
the finalized segments handed to `on_speech_end` in order. -/
def listen_run (s : VADState) : List (List Nat × Bool) → VADState × List (List Nat)
  | [] => (s, [])
  | (c, b) :: rest =>
    let s2 := listen_step s c b
    let r := listen_run s2.1 rest
    (r.1, s2.2.toList ++ r.2)

/-- `true` when the handler stays in the Speaking state at every point while
consuming the given frames (no finalization happens inside the list). -/
def staysSpeaking (s : VADState) : List (List Nat × Bool) → Bool
  | [] => true
  | (c, b) :: rest =>
    let s2 := (listen_step s c b).1
    s2.is_speaking && staysSpeaking s2 rest

/-- The last `n` elements of a list (what a `deque(maxlen=n)` retains). -/
def lastN (n : Nat) (l : List (List Nat)) : List (List Nat) := l.drop (l.length - n)

/-- Total byte count of the voiced frames (those scored as speech) of an input
trace — the "total voiced duration" the spec's minimum-duration discard talks
about.  This is a spec-side measure; the code has no such quantity. -/
def voiced_bytes (l : List (List Nat × Bool)) : Nat :=
  ((l.filter (fun p => p.2)).map (fun p => p.1.length)).sum

/-! ## TTS queue bookkeeping (`tts_handler.py`)

Python's `queue.Queue` keeps an internal deque `queue.queue` and a counter
`unfinished_tasks`: `put` appends and increments, `get` pops without touching the
counter, `task_done` decrements, and `join()` returns exactly when
`unfinished_tasks == 0`.

`TTSHandler.clear_queue` (tts_handler.py of the agent package, lines 25-30) does
`with self.tts_queue.mutex: self.tts_queue.queue.clear()` — it empties the deque
only.  The sibling `tts_handler.py` at the repository root instead drains on
interrupt with `get_nowait()` followed by `task_done()` per item
(`_process_tts_queue`, lines 79-87), with a comment calling the direct clear the
wrong, deadlocking way. -/

/-- `queue.Queue` as seen by the TTS handler: pending items plus `unfinished_tasks`. -/
structure TTSQueue where
  items : List String
  unfinished_tasks : Nat
deriving DecidableEq, Repr

/-- `queue.Queue.put`. -/
def tts_put (q : TTSQueue) (x : String) : TTSQueue :=
  { items := q.items ++ [x], unfinished_tasks := q.unfinished_tasks + 1 }

/-- `TTSHandler.clear_queue`: `with self.tts_queue.mutex: self.tts_queue.queue.clear()`. -/
def clear_queue (q : TTSQueue) : TTSQueue :=
  { items := [], unfinished_tasks := q.unfinished_tasks }

/-- The loop body of the root `tts_handler.py` drain-on-interrupt:
`while not empty: get_nowait(); task_done()`. -/
def drain_items : List String → Nat → Nat
  | [], u => u
  | _ :: rest, u => drain_items rest (u - 1)

/-- The drain-on-interrupt of the root `tts_handler.py` (`_process_tts_queue`,
lines 79-87): pop every pending item and call `task_done()` for each. -/
def drain_with_task_done (q : TTSQueue) : TTSQueue :=
  { items := [], unfinished_tasks := drain_items q.items q.unfinished_tasks }

/-- `queue.Queue.join()` (used by `TTSHandler.wait_for_completion`) returns, rather
than blocking, exactly when `unfinished_tasks == 0`. -/
def join_returns (q : TTSQueue) : Bool := q.unfinished_tasks = 0

/-! ## Decision channel interleavings (`decision_queue`, agent.py)

`decision_queue = queue.Queue(maxsize=1)`.  Its producers are the fast-path
threads (`_fast_decision_thread`'s `finally` performs one blocking `put` per
invocation); its consumer is the arbiter (`on_speech_end`: one `get(timeout=10.0)`
— which either consumes a value or times out on an empty channel — followed by a
`finally` drain).  Events are tagged with the utterance whose thread performs
them; the state records which utterance's wait consumed which utterance's
decision. -/

/-- The capacity-1 decision channel plus the log of consumptions
`(consumer utterance, producer utterance, decision string)`. -/
structure ChanState where
  chan : Option (Nat × String)
  consumed : List (Nat × Nat × String)
deriving DecidableEq, Repr

/-- Atomic events on `decision_queue`. -/
inductive Ev where
  | putDecision (u : Nat) (d : String)
  | waitConsume (u : Nat)
  | waitTimeout (u : Nat)
  | drainChan (u : Nat)
deriving DecidableEq, Repr

/-- One atomic event on the channel.  `none` means the event is not enabled in
this state: a `put` blocks while the capacity-1 queue is full, a `get` can only
return a value from a non-empty queue, and `queue.Empty` (timeout) can only be
raised when nothing arrived. -/
def evStep (s : ChanState) : Ev → Option ChanState
  | Ev.putDecision u d =>
      match s.chan with
      | none => some { chan := some (u, d), consumed := s.consumed }
      | some _ => none
  | Ev.waitConsume u =>
      match s.chan with
      | some vd => some { chan := none, consumed := s.consumed ++ [(u, vd.1, vd.2)] }
      | none => none
  | Ev.waitTimeout _ =>
      match s.chan with
      | none => some s
      | some _ => none
  | Ev.drainChan _ => some { chan := none, consumed := s.consumed }

/-- Run a whole interleaving; `none` when some event was not enabled, i.e. the
interleaving cannot happen. -/
def runEvents (s : ChanState) : List Ev → Option ChanState
  | [] => some s
  | e :: rest =>
    match evStep s e with
    | some s2 => runEvents s2 rest
    | none => none

/-- Every consumption attributes the decision to the utterance that produced it:
the property the claim asserts of all reachable states. -/
def NoMisattribution (s : ChanState) : Prop :=
  ∀ c ∈ s.consumed, c.1 = c.2.1

instance (s : ChanState) : Decidable (NoMisattribution s) := by
  unfold NoMisattribution
  infer_instance

end Agent

/-! # Theorems -/

namespace Agent

/-- **C1.** If the arbiter receives no Decision within its bounded wait
(`queue.Empty` after the 10 s timeout), it forwards the segment's audio to the main
processing queue, exactly as a `"process"` decision would; it never drops the
segment on timeout. -/
theorem arbiter_timeout_forwards (audio_data : List Nat) :
    on_speech_end none audio_data =
      { forwarded := [audio_data], channel_after := none } ∧
    (on_speech_end none audio_data).forwarded ≠ [] := by
  constructor
  · rfl
  · simp [on_speech_end]

/-- **C9.** The arbiter forwards a finalized segment only when the received value is
exactly the string `"process"`; any other received string — `"ignore"` or any
malformed value — discards the segment, unlike the fail-open default taken on
timeout. -/
theorem arbiter_forwards_only_process (d : String) (audio_data : List Nat) :
    (on_speech_end (some ("process")) audio_data).forwarded = [audio_data] ∧
    (d ≠ "process" → (on_speech_end (some d) audio_data).forwarded = []) ∧
    (on_speech_end none audio_data).forwarded = [audio_data] := by
  refine ⟨rfl, ?_, rfl⟩
  intro hd
  simp [on_speech_end, hd]

/-- Witness for `arbiter_forwards_only_process` at the malformed decision string
`"Process"` (wrong case) and a concrete one-byte segment. -/
theorem arbiter_forwards_only_process_witness :
    ("Process" : String) ≠ "process" ∧
    (on_speech_end (some ("Process")) [7]).forwarded = [] :=
  ⟨by decide, (arbiter_forwards_only_process ("Process") [7]).2.1 (by decide)⟩

/-- **C3.** Case analysis of the fast-path classifier: a snapshot shorter than 2048
bytes gives Decision=Ignore; an empty/whitespace transcript gives Ignore; a
transcript the external classifier labels `"interrupt"` gives Process and sets the
interrupt flag; a `"disinterrupt"` label gives Ignore; an exception in the
transcription call or in the classifier call gives Process and sets the interrupt
flag. -/
theorem fast_decision_cases :
    (∀ (tr cl : Except Unit String) (n : Nat), n < 2048 →
      fast_decision n tr cl = ("ignore", InterruptEffect.keep)) ∧
    (∀ (cl : Except Unit String) (n : Nat) (text : String), ¬ n < 2048 →
      pyStrip text = "" →
      fast_decision n (Except.ok text) cl = ("ignore", InterruptEffect.keep)) ∧
    (∀ (n : Nat) (text raw : String), ¬ n < 2048 → pyStrip text ≠ "" →
      pyLower (pyStrip raw) = "interrupt" →
      fast_decision n (Except.ok text) (Except.ok raw) =
        ("process", InterruptEffect.setFlag)) ∧
    (∀ (n : Nat) (text raw : String), ¬ n < 2048 → pyStrip text ≠ "" →
      pyLower (pyStrip raw) = "disinterrupt" →
      fast_decision n (Except.ok text) (Except.ok raw) =
        ("ignore", InterruptEffect.clearFlag)) ∧
    (∀ (cl : Except Unit String) (n : Nat), ¬ n < 2048 →
      fast_decision n (Except.error ()) cl = ("process", InterruptEffect.setFlag)) ∧
    (∀ (n : Nat) (text : String), ¬ n < 2048 → pyStrip text ≠ "" →
      fast_decision n (Except.ok text) (Except.error ()) =
        ("process", InterruptEffect.setFlag)) := by
  refine ⟨?_, ?_, ?_, ?_, ?_, ?_⟩
  · intro tr cl n hn
    simp [fast_decision, hn]
  · intro cl n text hn ht
    simp [fast_decision, hn, ht]
  · intro n text raw hn ht hr
    simp [fast_decision, hn, ht, hr]
  · intro n text raw hn ht hr
    have : pyLower (pyStrip raw) ≠ "interrupt" := by
      rw [hr]; decide
    simp [fast_decision, hn, ht, this]
  · intro cl n hn
    simp [fast_decision, hn]
  · intro n text hn ht
    simp [fast_decision, hn, ht]

/-- Witness for `fast_decision_cases`: a 4096-byte snapshot whose transcript is
`" 好的 "` and which the classifier labels `" Disinterrupt "` is Ignored and clears
the interrupt flag. -/
theorem fast_decision_cases_witness :
    ¬ (4096 : Nat) < 2048 ∧ pyStrip (" 好的 ") ≠ "" ∧
    pyLower (pyStrip (" Disinterrupt ")) = "disinterrupt" ∧
    fast_decision 4096 (Except.ok (" 好的 ")) (Except.ok (" Disinterrupt ")) =
      ("ignore", InterruptEffect.clearFlag) :=
  ⟨by decide, by decide, by decide,
    fast_decision_cases.2.2.2.1 4096 (" 好的 ") (" Disinterrupt ")
      (by decide) (by decide) (by decide)⟩

/-- **C8, counterexample.** When the transcription call raises inside the fast-path
classifier, the decision is `"process"` with the interrupt flag set — not the
`"ignore"` that an empty transcript produces.  The claim "failure is treated as an
empty transcript and biases toward Ignore" is false at this input: snapshot of
4096 bytes, transcription raising. -/
theorem fast_decision_transcribe_error_not_ignore :
    fast_decision 4096 (Except.error ()) (Except.ok ("disinterrupt")) =
      ("process", InterruptEffect.setFlag) ∧
    (fast_decision 4096 (Except.error ()) (Except.ok ("disinterrupt"))).1 ≠ "ignore" ∧
    fast_decision 4096 (Except.ok ("")) (Except.ok ("disinterrupt")) =
      ("ignore", InterruptEffect.keep) := by
  refine ⟨rfl, ?_, rfl⟩
  decide

/-- **C8, amended.** When the transcription call raises inside the fast-path
classifier (with a snapshot long enough to reach it), the `except` handler makes
the Decision Process and sets the interrupt flag — the fail-open bias, not the
Ignore bias of an empty transcript. -/
theorem fast_decision_transcribe_error_fails_open
    (cl : Except Unit String) (n : Nat) (hn : ¬ n < 2048) :
    fast_decision n (Except.error ()) cl = ("process", InterruptEffect.setFlag) := by
  simp [fast_decision, hn]

/-- Witness for `fast_decision_transcribe_error_fails_open` at a 2048-byte snapshot. -/
theorem fast_decision_transcribe_error_fails_open_witness :
    ¬ (2048 : Nat) < 2048 ∧
    fast_decision 2048 (Except.error ()) (Except.ok ("interrupt")) =
      ("process", InterruptEffect.setFlag) :=
  ⟨by decide,
    fast_decision_transcribe_error_fails_open (Except.ok ("interrupt")) 2048 (by decide)⟩

/-- **C10.** When the content guardrail triggers on a transcribed utterance (the
transcript contains the marker `"捣乱"`), the main-loop turn plays only the fixed
scripted response, leaves the conversation history exactly unchanged, and does not
invoke the large language model. -/
theorem guardrail_skips_turn (history : List Message) (user_text : String)
    (h : strContains user_text guardrail_marker = true) :
    main_loop_turn history user_text =
      { history := history, llm_invoked := false,
        tts_played := [guardrail_response] } := by
  simp [main_loop_turn, apply_input_guardrails, h]

/-- Witness for `guardrail_skips_turn` at a concrete transcript containing the
marker, with a one-message history. -/
theorem guardrail_skips_turn_witness :
    strContains ("请你不要捣乱了") guardrail_marker = true ∧
    main_loop_turn [{ role := "system", content := "s" }] "请你不要捣乱了" =
      { history := [{ role := "system", content := "s" }], llm_invoked := false,
        tts_played := [guardrail_response] } :=
  ⟨by decide, guardrail_skips_turn [{ role := "system", content := "s" }]
    "请你不要捣乱了" (by decide)⟩

/-! ## Lemmas about `listen_and_detect` -/

/-- With the configured constants, the endpoint test
`silence_chunks * VAD_FRAME_MS >= VAD_MAX_SILENCE_DURATION_MS` means
`25 ≤ silence_chunks`. -/
theorem silence_threshold_iff (n : Nat) :
    (VAD_MAX_SILENCE_DURATION_MS ≤ n * VAD_FRAME_MS) ↔ 25 ≤ n := by
  simp only [VAD_MAX_SILENCE_DURATION_MS, VAD_FRAME_MS]
  omega

theorem listen_run_nil (s : VADState) : listen_run s [] = (s, []) := rfl

theorem listen_run_cons (s : VADState) (c : List Nat) (b : Bool)
    (rest : List (List Nat × Bool)) :
    listen_run s ((c, b) :: rest) =
      ((listen_run (listen_step s c b).1 rest).1,
        (listen_step s c b).2.toList ++ (listen_run (listen_step s c b).1 rest).2) := rfl

theorem listen_run_append (l1 l2 : List (List Nat × Bool)) (s : VADState) :
    listen_run s (l1 ++ l2) =
      ((listen_run (listen_run s l1).1 l2).1,
        (listen_run s l1).2 ++ (listen_run (listen_run s l1).1 l2).2) := by
  induction l1 generalizing s with
  | nil => simp [listen_run]
  | cons p rest ih =>
    obtain ⟨c, b⟩ := p
    simp [listen_run_cons, ih, List.append_assoc]

/-- A silence frame while Speaking before the threshold: append and count. -/
theorem listen_step_silence_below (s : VADState) (c : List Nat)
    (hs : s.is_speaking = true) (hn : s.silence_chunks_after_speech + 1 ≤ 24) :
    listen_step s c false =
      ({ s with speech_buffer := s.speech_buffer ++ [c],
                silence_chunks_after_speech := s.silence_chunks_after_speech + 1 },
        none) := by
  have hthr : ¬ (VAD_MAX_SILENCE_DURATION_MS ≤
      (s.silence_chunks_after_speech + 1) * VAD_FRAME_MS) := by
    rw [silence_threshold_iff]
    omega
  simp [listen_step, hs, hthr]

/-- A silence frame while Speaking at the threshold: finalize. -/
theorem listen_step_silence_final (s : VADState) (c : List Nat)
    (hs : s.is_speaking = true) (hn : 25 ≤ s.silence_chunks_after_speech + 1) :
    listen_step s c false =
      (initState,
        if min_speech_duration_samples * 2 ≤
            (joinChunks (s.speech_buffer ++ [c])).length
        then some (joinChunks (s.speech_buffer ++ [c])) else none) := by
  have hthr : VAD_MAX_SILENCE_DURATION_MS ≤
      (s.silence_chunks_after_speech + 1) * VAD_FRAME_MS := by
    rw [silence_threshold_iff]
    omega
  simp [listen_step, hs, hthr]

/-- Feeding `k ≤ 24 - counter` silence frames to a Speaking handler appends them
all and adds `k` to the silence-run counter, finalizing nothing. -/
theorem silence_accum (k : Nat) :
    ∀ (s : VADState) (c : List Nat), s.is_speaking = true →
    s.silence_chunks_after_speech + k ≤ 24 →
    listen_run s (List.replicate k (c, false)) =
      ({ s with speech_buffer := s.speech_buffer ++ List.replicate k c,
                silence_chunks_after_speech := s.silence_chunks_after_speech + k },
        []) := by
  induction k with
  | zero =>
    intro s c hs _
    simp [listen_run]
  | succ n ih =>
    intro s c hs hk
    rw [List.replicate_succ, listen_run_cons,
      listen_step_silence_below s c hs (by omega)]
    rw [ih _ c (by simpa using hs) (by simp; omega)]
    simp [List.replicate_succ, List.append_assoc]
    omega

/-- Feeding exactly the remaining `trail.length` silence frames (reaching counter
25 at the last one) finalizes at the last frame: the handler state is reset and
the joined buffer is emitted iff it passes the length check. -/
theorem final_silence_run (trail : List (List Nat)) :
    ∀ (s : VADState), s.is_speaking = true →
    s.silence_chunks_after_speech + trail.length = 25 →
    trail ≠ [] →
    listen_run s (trail.map (fun c => (c, false))) =
      (initState,
        if min_speech_duration_samples * 2 ≤
            (joinChunks (s.speech_buffer ++ trail)).length
        then [joinChunks (s.speech_buffer ++ trail)] else []) := by
  induction trail with
  | nil =>
    intro s _ _ hne
    exact absurd rfl hne
  | cons c rest ih =>
    intro s hs hlen _
    by_cases hrest : rest = []
    · subst hrest
      simp only [List.length_cons, List.length_nil, Nat.zero_add] at hlen
      rw [List.map_cons, List.map_nil, listen_run_cons,
        listen_step_silence_final s c hs (by omega)]
      by_cases hmin : min_speech_duration_samples * 2 ≤
          (joinChunks (s.speech_buffer ++ [c])).length
      · simp [hmin, listen_run]
      · simp [hmin, listen_run]
    · have hrl : 1 ≤ rest.length := by
        cases rest with
        | nil => exact absurd rfl hrest
        | cons x xs => simp
      simp only [List.length_cons] at hlen
      rw [List.map_cons, listen_run_cons,
        listen_step_silence_below s c hs (by omega)]
      rw [ih _ (by simpa using hs) (by simp; omega) hrest]
      simp [List.append_assoc]

/-- While the handler stays Speaking, every frame — speech or silence — is
appended to the segment buffer, in order, nothing is emitted, and the ring buffer
is untouched. -/
theorem run_while_speaking (mid : List (List Nat × Bool)) :
    ∀ (s : VADState), s.is_speaking = true → staysSpeaking s mid = true →
    (listen_run s mid).1.is_speaking = true ∧
    (listen_run s mid).1.speech_buffer = s.speech_buffer ++ mid.map Prod.fst ∧
    (listen_run s mid).1.ring_buffer = s.ring_buffer ∧
    (listen_run s mid).2 = [] := by
  induction mid with
  | nil =>
    intro s hs _
    simp [listen_run, hs]
  | cons p rest ih =>
    intro s hs hstay
    obtain ⟨c, b⟩ := p
    simp only [staysSpeaking, Bool.and_eq_true] at hstay
    obtain ⟨hsp2, hstay2⟩ := hstay
    cases b with
    | true =>
      have hstep : listen_step s c true =
          ({ s with speech_buffer := s.speech_buffer ++ [c],
                    silence_chunks_after_speech := 0 }, none) := by
        simp [listen_step, hs]
      rw [listen_run_cons, hstep]
      rw [hstep] at hsp2 hstay2
      have := ih _ (by simpa using hsp2) hstay2
      simpa [List.append_assoc] using this
    | false =>
      by_cases hthr : VAD_MAX_SILENCE_DURATION_MS ≤
          (s.silence_chunks_after_speech + 1) * VAD_FRAME_MS
      · exfalso
        have hstep : (listen_step s c false).1 = initState := by
          simp [listen_step, hs, hthr]
        rw [hstep] at hsp2
        simp [initState] at hsp2
      · have hstep : listen_step s c false =
            ({ s with speech_buffer := s.speech_buffer ++ [c],
                      silence_chunks_after_speech :=
                        s.silence_chunks_after_speech + 1 }, none) := by
          simp [listen_step, hs, hthr]
        rw [listen_run_cons, hstep]
        rw [hstep] at hsp2 hstay2
        have := ih _ (by simpa using hsp2) hstay2
        simpa [List.append_assoc] using this

/-- One step of the deque update preserves "the ring holds the last 5 frames". -/
theorem ringAppend_lastN (xs : List (List Nat)) (c : List Nat) :
    ringAppend (lastN RING_MAXLEN xs) c = lastN RING_MAXLEN (xs ++ [c]) := by
  unfold ringAppend lastN RING_MAXLEN
  by_cases h : xs.length < 5
  · have h0 : xs.length - 5 = 0 := by omega
    have h1 : (xs ++ [c]).length - 5 = 0 := by simp; omega
    rw [h0, h1]
    simp [h]
  · have hlen : (xs.drop (xs.length - 5)).length = 5 := by
      rw [List.length_drop]
      omega
    rw [if_neg (by omega)]
    rw [List.tail_drop]
    have h2 : (xs ++ [c]).length - 5 = (xs.length - 5) + 1 := by simp; omega
    rw [h2, List.drop_append_of_le_length (by omega)]

/-- Folding deque appends starting from the last-5 view keeps the last-5 view. -/
theorem foldl_ringAppend_lastN (pre : List (List Nat)) :
    ∀ (xs : List (List Nat)),
    List.foldl ringAppend (lastN RING_MAXLEN xs) pre = lastN RING_MAXLEN (xs ++ pre) := by
  induction pre with
  | nil => intro xs; simp
  | cons c rest ih =>
    intro xs
    rw [List.foldl_cons, ringAppend_lastN, ih (xs ++ [c])]
    simp

/-- Silence frames while Idle only feed the ring buffer. -/
theorem idle_ring_run (pre : List (List Nat)) :
    ∀ (r : List (List Nat)),
    listen_run
      { is_speaking := false, speech_buffer := [], silence_chunks_after_speech := 0,
        ring_buffer := r } (pre.map (fun c => (c, false))) =
      ({ is_speaking := false, speech_buffer := [], silence_chunks_after_speech := 0,
         ring_buffer := List.foldl ringAppend r pre }, []) := by
  induction pre with
  | nil => intro r; simp [listen_run]
  | cons c rest ih =>
    intro r
    rw [List.map_cons, listen_run_cons]
    have hstep : listen_step
        { is_speaking := false, speech_buffer := [],
          silence_chunks_after_speech := 0, ring_buffer := r } c false =
        ({ is_speaking := false, speech_buffer := [],
           silence_chunks_after_speech := 0, ring_buffer := ringAppend r c },
          none) := by
      simp [listen_step]
    rw [hstep, ih (ringAppend r c)]
    simp

/-- The transition taken at speech onset from an Idle state with empty segment
buffer: flush the ring into the segment, append the onset frame, zero the counter. -/
theorem onset_step (r : List (List Nat)) (onset : List Nat) :
    listen_step
      { is_speaking := false, speech_buffer := [], silence_chunks_after_speech := 0,
        ring_buffer := r } onset true =
      ({ is_speaking := true, speech_buffer := r ++ [onset],
         silence_chunks_after_speech := 0, ring_buffer := [] }, none) := by
  simp [listen_step]

/-- **C4.** While Speaking, every frame scored as speech resets the silence-run
counter to 0; a silence frame finalizes the segment iff it brings the contiguous
run to the threshold (with the configured constants, 25 frames: `25·32 ≥ 800`,
`24·32 < 800`); from a zero counter, 24 consecutive silence frames leave the
segment open and 25 finalize it. -/
theorem endpointing_contiguous_silence :
    (∀ (s : VADState) (c : List Nat), s.is_speaking = true →
      ((listen_step s c true).1).silence_chunks_after_speech = 0 ∧
      ((listen_step s c true).1).is_speaking = true) ∧
    (∀ (s : VADState) (c : List Nat), s.is_speaking = true →
      (((listen_step s c false).1).is_speaking = false ↔
        25 ≤ s.silence_chunks_after_speech + 1)) ∧
    (∀ (s : VADState) (c : List Nat), s.is_speaking = true →
      s.silence_chunks_after_speech = 0 →
      (listen_run s (List.replicate 24 (c, false))).1.is_speaking = true ∧
      (listen_run s (List.replicate 25 (c, false))).1.is_speaking = false) ∧
    (∀ n : Nat, (VAD_MAX_SILENCE_DURATION_MS ≤ n * VAD_FRAME_MS) ↔ 25 ≤ n) := by
  refine ⟨?_, ?_, ?_, silence_threshold_iff⟩
  · intro s c hs
    simp [listen_step, hs]
  · intro s c hs
    by_cases h25 : 25 ≤ s.silence_chunks_after_speech + 1
    · rw [listen_step_silence_final s c hs h25]
      simp [initState, h25]
    · rw [listen_step_silence_below s c hs (by omega)]
      simp [hs]
      omega
  · intro s c hs h0
    have h24 : s.silence_chunks_after_speech + 24 ≤ 24 := by omega
    constructor
    · rw [silence_accum 24 s c hs h24]
      simpa using hs
    · have hsplit : (List.replicate 25 ((c, false) : List Nat × Bool)) =
          List.replicate 24 (c, false) ++ [(c, false)] := by
        rw [← List.replicate_succ']
      rw [hsplit, listen_run_append, silence_accum 24 s c hs h24, listen_run_cons]
      rw [listen_step_silence_final _ c (by simpa using hs) (by simp)]
      simp [listen_run, initState]

/-- Witness for `endpointing_contiguous_silence` at a concrete Speaking state:
24 silence frames keep the segment open, the 25th finalizes it. -/
theorem endpointing_contiguous_silence_witness :
    (listen_run
      { is_speaking := true, speech_buffer := [[1]],
        silence_chunks_after_speech := 0, ring_buffer := [] }
      (List.replicate 24 ([2], false))).1.is_speaking = true ∧
    (listen_run
      { is_speaking := true, speech_buffer := [[1]],
        silence_chunks_after_speech := 0, ring_buffer := [] }
      (List.replicate 25 ([2], false))).1.is_speaking = false :=
  endpointing_contiguous_silence.2.2.1
    { is_speaking := true, speech_buffer := [[1]],
      silence_chunks_after_speech := 0, ring_buffer := [] } [2] rfl rfl

/-- **C6.** Pre-roll correctness: starting from the initial handler state, for a
trace of silence frames `pre` while Idle, the onset frame, a body `mid` during
which the handler stays Speaking ending with a zero silence counter, and 25
trailing silence frames, exactly one segment is finalized and it is the
concatenation — in arrival order, each frame once — of the last
`min(RING_MAXLEN, |pre|)` pre-onset frames, the onset frame, every body frame and
every trailing silence frame. -/
theorem preroll_segment_exact (pre : List (List Nat)) (onset : List Nat)
    (mid : List (List Nat × Bool)) (trail : List (List Nat))
    (h1 : staysSpeaking
      { is_speaking := true, speech_buffer := lastN RING_MAXLEN pre ++ [onset],
        silence_chunks_after_speech := 0, ring_buffer := [] } mid = true)
    (h2 : (listen_run
      { is_speaking := true, speech_buffer := lastN RING_MAXLEN pre ++ [onset],
        silence_chunks_after_speech := 0, ring_buffer := [] }
        mid).1.silence_chunks_after_speech = 0)
    (h3 : trail.length = 25)
    (h4 : min_speech_duration_samples * 2 ≤
      (joinChunks (lastN RING_MAXLEN pre ++ onset :: (mid.map Prod.fst ++ trail))).length) :
    listen_run initState
        (pre.map (fun c => (c, false)) ++
          (onset, true) :: (mid ++ trail.map (fun c => (c, false)))) =
      (initState,
        [joinChunks (lastN RING_MAXLEN pre ++ onset :: (mid.map Prod.fst ++ trail))]) := by
  have hring : List.foldl ringAppend ([] : List (List Nat)) pre = lastN RING_MAXLEN pre := by
    have := foldl_ringAppend_lastN pre []
    simpa [lastN] using this
  have hidle : listen_run initState (pre.map (fun c => (c, false))) =
      ({ is_speaking := false, speech_buffer := [], silence_chunks_after_speech := 0,
         ring_buffer := lastN RING_MAXLEN pre }, []) := by
    rw [show initState =
      { is_speaking := false, speech_buffer := [], silence_chunks_after_speech := 0,
        ring_buffer := ([] : List (List Nat)) } from rfl]
    rw [idle_ring_run pre [], hring]
  set s1 : VADState :=
    { is_speaking := true, speech_buffer := lastN RING_MAXLEN pre ++ [onset],
      silence_chunks_after_speech := 0, ring_buffer := [] } with hs1
  have hmid := run_while_speaking mid s1 rfl h1
  obtain ⟨hsp, hbuf, _, hemp⟩ := hmid
  have htrail_ne : trail ≠ [] := by
    intro h
    rw [h] at h3
    simp at h3
  have hfin := final_silence_run trail (listen_run s1 mid).1 hsp
    (by rw [h2, h3]) htrail_ne
  rw [listen_run_append, hidle, listen_run_cons, onset_step]
  rw [← hs1, listen_run_append, hfin, hbuf, hs1]
  simp only [List.append_assoc, List.cons_append, List.singleton_append]
  rw [if_pos (by simpa [List.append_assoc] using h4)]
  simp [hemp, listen_run]

/-- Witness for `preroll_segment_exact`: six pre-onset frames (only the last five
survive in the ring), an 8000-byte onset frame, no body, 25 trailing silence
frames. -/
theorem preroll_segment_exact_witness :
    (List.replicate 25 ([7] : List Nat)).length = 25 ∧
    min_speech_duration_samples * 2 ≤
      (joinChunks (lastN RING_MAXLEN (List.replicate 6 [9]) ++
        List.replicate 8000 0 :: (([] : List (List Nat × Bool)).map Prod.fst ++
          List.replicate 25 [7]))).length ∧
    listen_run initState
        ((List.replicate 6 [9]).map (fun c => (c, false)) ++
          (List.replicate 8000 0, true) ::
            (([] : List (List Nat × Bool)) ++
              (List.replicate 25 [7]).map (fun c => (c, false)))) =
      (initState,
        [joinChunks (lastN RING_MAXLEN (List.replicate 6 [9]) ++
          List.replicate 8000 0 :: (([] : List (List Nat × Bool)).map Prod.fst ++
            List.replicate 25 [7]))]) := by
  have hlast : lastN RING_MAXLEN (List.replicate 6 ([9] : List Nat)) =
      List.replicate 5 [9] := by decide
  have h4 : min_speech_duration_samples * 2 ≤
      (joinChunks (lastN RING_MAXLEN (List.replicate 6 [9]) ++
        List.replicate 8000 0 :: (([] : List (List Nat × Bool)).map Prod.fst ++
          List.replicate 25 [7]))).length := by
    rw [hlast]
    simp only [joinChunks, List.length_flatten, List.map_append, List.map_cons,
      List.map_replicate, List.length_replicate, List.nil_append, List.sum_append,
      List.sum_cons, List.sum_replicate, smul_eq_mul, List.length_cons,
      List.length_nil, List.map_nil, List.sum_nil]
    norm_num [min_speech_duration_samples, VAD_MIN_SPEECH_DURATION_MS,
      AUDIO_SAMPLING_RATE]
  exact ⟨by simp, h4,
    preroll_segment_exact (List.replicate 6 [9]) (List.replicate 8000 0) []
      (List.replicate 25 [7]) rfl rfl (by simp) h4⟩

/-- **C5, counterexample.**  A trace whose voiced frames total 1 byte — far below
`min_speech_duration_samples * 2 = 8000` — still emits its finalized segment,
because the discard check in `listen_and_detect` compares the *total* segment
length (trailing silence included), which here is 8001 bytes.  The claim "a
segment whose total voiced duration is below the minimum threshold is discarded
silently" is false at this input: one 1-byte speech frame, one 8000-byte silence
frame, then 24 empty silence frames. -/
theorem min_voiced_discard_false :
    voiced_bytes (([5], true) :: (List.replicate 8000 (0 : Nat), false) ::
        List.replicate 24 (([] : List Nat), false)) <
      min_speech_duration_samples * 2 ∧
    (listen_run initState (([5], true) :: (List.replicate 8000 (0 : Nat), false) ::
        List.replicate 24 (([] : List Nat), false))).2 ≠ [] := by
  have hstep : listen_step initState [5] true =
      ({ is_speaking := true, speech_buffer := [[5]],
         silence_chunks_after_speech := 0, ring_buffer := [] }, none) := by
    simpa using onset_step [] [5]
  have hmap : (List.replicate 8000 (0 : Nat), false) ::
      List.replicate 24 (([] : List Nat), false) =
      (List.replicate 8000 (0 : Nat) :: List.replicate 24 ([] : List Nat)).map
        (fun c => (c, false)) := by
    simp only [List.map_cons, List.map_replicate]
  have hlen : min_speech_duration_samples * 2 ≤
      (joinChunks ([[5]] ++
        List.replicate 8000 (0 : Nat) :: List.replicate 24 ([] : List Nat))).length := by
    simp only [joinChunks, List.length_flatten, List.map_append, List.map_cons,
      List.map_replicate, List.length_replicate, List.nil_append, List.sum_append,
      List.sum_cons, List.sum_replicate, smul_eq_mul, List.length_cons,
      List.length_nil, List.map_nil, List.sum_nil]
    norm_num [min_speech_duration_samples, VAD_MIN_SPEECH_DURATION_MS,
      AUDIO_SAMPLING_RATE]
  have hfin := final_silence_run
    (List.replicate 8000 (0 : Nat) :: List.replicate 24 ([] : List Nat))
    { is_speaking := true, speech_buffer := [[5]],
      silence_chunks_after_speech := 0, ring_buffer := [] }
    rfl (by simp only [List.length_cons, List.length_replicate]) (List.cons_ne_nil _ _)
  refine ⟨by decide, ?_⟩
  rw [listen_run_cons, hstep, hmap]
  simp only [Option.toList, List.nil_append]
  rw [hfin, if_pos (show min_speech_duration_samples * 2 ≤ _ from hlen)]
  simp only [ne_eq]
  exact List.cons_ne_nil _ _

/-- **C5, amended.** The nothing-downstream discard of a finalized segment is
decided by the segment's total byte length (pre-roll and trailing silence
included): at the endpoint the handler resets to the initial state, and
`on_speech_end` is not called iff
`len(final_audio) < min_speech_duration_samples * 2`. -/
theorem discard_by_total_length (s : VADState) (c : List Nat)
    (hs : s.is_speaking = true) (hn : 25 ≤ s.silence_chunks_after_speech + 1) :
    (listen_step s c false).1 = initState ∧
    ((listen_step s c false).2 = none ↔
      (joinChunks (s.speech_buffer ++ [c])).length <
        min_speech_duration_samples * 2) := by
  rw [listen_step_silence_final s c hs hn]
  by_cases h : min_speech_duration_samples * 2 ≤
      (joinChunks (s.speech_buffer ++ [c])).length
  · simp [h]
  · simp [h]
    omega

/-- Witness for `discard_by_total_length`: a 25th silence frame finalizing a
3-byte segment resets the state and emits nothing. -/
theorem discard_by_total_length_witness :
    (25 ≤ 24 + 1) ∧
    (listen_step
      { is_speaking := true, speech_buffer := [[1, 2]],
        silence_chunks_after_speech := 24, ring_buffer := [] } [3] false).1 =
      initState ∧
    (listen_step
      { is_speaking := true, speech_buffer := [[1, 2]],
        silence_chunks_after_speech := 24, ring_buffer := [] } [3] false).2 = none :=
  ⟨by decide,
    (discard_by_total_length
      { is_speaking := true, speech_buffer := [[1, 2]],
        silence_chunks_after_speech := 24, ring_buffer := [] } [3] rfl (by decide)).1,
    (discard_by_total_length
      { is_speaking := true, speech_buffer := [[1, 2]],
        silence_chunks_after_speech := 24, ring_buffer := [] } [3] rfl
      (by decide)).2.mpr (by decide)⟩

/-- **C7.** Evaluation of the TTS queue bookkeeping at the failing input: with two
items enqueued and none rendering, `TTSHandler.clear_queue` (which only runs
`self.tts_queue.queue.clear()`) empties the pending list but leaves
`unfinished_tasks = 2`, so `tts_queue.join()` — `wait_for_completion` — blocks
forever instead of returning; the drain-with-`task_done` loop of the sibling
`tts_handler.py` (the repository's own documented fix for exactly this deadlock)
brings `unfinished_tasks` to 0 and lets `join()` return. -/
theorem clear_queue_breaks_join :
    clear_queue (tts_put (tts_put { items := [], unfinished_tasks := 0 } "a") "b") =
      { items := [], unfinished_tasks := 2 } ∧
    join_returns
      (clear_queue (tts_put (tts_put { items := [], unfinished_tasks := 0 } "a") "b")) =
      false ∧
    drain_with_task_done
      (tts_put (tts_put { items := [], unfinished_tasks := 0 } "a") "b") =
      { items := [], unfinished_tasks := 0 } ∧
    join_returns (drain_with_task_done
      (tts_put (tts_put { items := [], unfinished_tasks := 0 } "a") "b")) = true := by
  refine ⟨rfl, rfl, rfl, rfl⟩

/-- **C2, counterexample.** A legal interleaving in which utterance 1's arbiter
wait times out and drains an empty channel, utterance 1's fast-path thread then
delivers its late `"ignore"` Decision, and utterance 2's arbiter wait consumes it:
the consumption log records utterance 2 consuming utterance 1's Decision.  Every
event is enabled (`runEvents` returns `some`), each utterance performs one put and
one wait-then-drain, yet `NoMisattribution` fails — so the claim's "a Decision
produced for U1 is never consumed by the arbiter wait guarding U2" is false. -/
theorem stale_decision_misattributed :
    runEvents { chan := none, consumed := [] }
        [Ev.waitTimeout 1, Ev.drainChan 1, Ev.putDecision 1 "ignore",
         Ev.waitConsume 2, Ev.drainChan 2, Ev.putDecision 2 "process"] =
      some { chan := some (2, "process"), consumed := [(2, 1, "ignore")] } ∧
    ¬ NoMisattribution { chan := some (2, "process"), consumed := [(2, 1, "ignore")] } := by
  refine ⟨rfl, ?_⟩
  intro h
  have := h (2, 1, "ignore") (by simp)
  simp at this

/-- **C2, amended.** What the capacity-1 channel discipline does guarantee: a
Decision can be placed only when the channel is empty (the blocking `put` cannot
overwrite or accumulate), and after the arbiter's `finally` drain the channel is
always empty. -/
theorem decision_channel_discipline :
    (∀ (s : ChanState) (u : Nat) (d : String) (s' : ChanState),
      evStep s (Ev.putDecision u d) = some s' →
        s.chan = none ∧ s'.chan = some (u, d)) ∧
    (∀ (s : ChanState) (u : Nat) (s' : ChanState),
      evStep s (Ev.drainChan u) = some s' → s'.chan = none) := by
  constructor
  · intro s u d s' h
    cases hc : s.chan with
    | none =>
      rw [evStep, hc] at h
      refine ⟨rfl, ?_⟩
      cases h
      rfl
    | some v =>
      rw [evStep, hc] at h
      cases h
  · intro s u s' h
    rw [evStep] at h
    cases h
    rfl

/-- Witness for `decision_channel_discipline`: a put into the empty channel
succeeds, came from an empty channel, and fills it with exactly that decision. -/
theorem decision_channel_discipline_witness :
    ({ chan := none, consumed := [] } : ChanState).chan = none ∧
    ({ chan := some (2, "process"), consumed := [] } : ChanState).chan =
      some (2, "process") :=
  decision_channel_discipline.1 { chan := none, consumed := [] } 2 "process"
    { chan := some (2, "process"), consumed := [] } rfl

end Agent
